import Mathlib

/-!
Shallow embedding of the spatial indexing engine in
`src/features/wasm-html-builder/module/src/spatial_index.rs`.

Modelling conventions:
* coordinates are rationals (the Rust code uses `f64`; every arithmetic
  operation the code performs other than `f64::sqrt` is field arithmetic
  plus `floor`/`ceil`, which is exact on rationals).  `f64::sqrt` is
  modelled as an uninterpreted function parameter `sqrtFn`;
* Rust's saturating `as usize` cast is modelled by `Int.toNat`
  (negative values clamp to `0`);
* `HashSet<String>` per cell is modelled by making the whole
  `Vec<Vec<GridCell>>` the finite set of `(row, col, id)` membership
  triples; `HashMap<String, Element>` is an association list holding at
  most one entry per key;
* `Element` keeps exactly the fields `spatial_index.rs` reads
  (`id, x, y, width, height`); the remaining fields of `types.rs` are
  payload the index only clones, never inspects;
* query results are returned as Lean lists instead of JSON strings
  (serialization is the identity on the modelled data);
* the wall-clock query timing and the `Mutex` wrappers are not modelled:
  every operation acts on the whole manager state.
-/

namespace York

/- Batteries marks the `Rat` field operations `@[irreducible]`; re-enable
unfolding so that concrete states evaluate under `decide`. -/
attribute [local semireducible] Rat.add Rat.sub Rat.mul Rat.inv Rat.ofScientific

/-- Geometry record consumed by the index (`types.rs::Element`,
restricted to the fields `spatial_index.rs` uses). -/
structure Element where
  id : String
  x : ℚ
  y : ℚ
  width : ℚ
  height : ℚ
deriving DecidableEq

/-- `SpatialGrid` (spatial_index.rs:23).  `cells` models
`Vec<Vec<GridCell>>` as the collection of `(row, col, id)` triples such
that `id` is a member of the `HashSet` of cell `(row, col)`; the
duplicate-free list is kept in lock-step with `HashSet` membership by
inserting only absent triples. -/
structure SpatialGrid where
  cellSize : ℚ
  width : ℚ
  height : ℚ
  cols : ℕ
  rows : ℕ
  cells : List (ℕ × ℕ × String)
  bounds : ℚ × ℚ × ℚ × ℚ
deriving DecidableEq

/-- `SpatialGrid::new` (spatial_index.rs:34). -/
def SpatialGrid.new (bounds : ℚ × ℚ × ℚ × ℚ) (cellSize : ℚ) : SpatialGrid :=
  { cellSize := cellSize
    width := bounds.2.2.1
    height := bounds.2.2.2
    cols := (⌈bounds.2.2.1 / cellSize⌉).toNat
    rows := (⌈bounds.2.2.2 / cellSize⌉).toNat
    cells := []
    bounds := bounds }

/-- `SpatialGrid::get_cell_coords` (spatial_index.rs:60).  The Rust
`as usize` cast saturates negative floor values to `0`. -/
def SpatialGrid.getCellCoords (g : SpatialGrid) (x y : ℚ) : Option (ℕ × ℕ) :=
  let col : ℕ := (⌊(x - g.bounds.1) / g.cellSize⌋).toNat
  let row : ℕ := (⌊(y - g.bounds.2.1) / g.cellSize⌋).toNat
  if row < g.rows ∧ col < g.cols then some (row, col) else none

/-- `SpatialGrid::get_intersecting_cells` (spatial_index.rs:73). -/
def SpatialGrid.getIntersectingCells (g : SpatialGrid) (x y width height : ℚ) :
    List (ℕ × ℕ) :=
  let startCol : ℕ := (⌊(x - g.bounds.1) / g.cellSize⌋).toNat
  let endCol : ℕ := (⌈(x + width - g.bounds.1) / g.cellSize⌉).toNat
  let startRow : ℕ := (⌊(y - g.bounds.2.1) / g.cellSize⌋).toNat
  let endRow : ℕ := (⌈(y + height - g.bounds.2.1) / g.cellSize⌉).toNat
  (List.range' startRow (min endRow g.rows - startRow)).flatMap fun row =>
    (List.range' startCol (min endCol g.cols - startCol)).map fun col => (row, col)

/-- `HashSet::insert` on the duplicate-free list model of cell
membership. -/
def hashInsert (cs : List (ℕ × ℕ × String)) (t : ℕ × ℕ × String) :
    List (ℕ × ℕ × String) :=
  if t ∈ cs then cs else t :: cs

/-- `SpatialGrid::add_element` (spatial_index.rs:92). -/
def SpatialGrid.addElement (g : SpatialGrid) (elementId : String)
    (x y width height : ℚ) : SpatialGrid :=
  { g with cells :=
      ((g.getIntersectingCells x y width height).map
        fun rc => (rc.1, rc.2, elementId)).foldl hashInsert g.cells }

/-- `SpatialGrid::remove_element` (spatial_index.rs:100): removes the id
from every cell. -/
def SpatialGrid.removeElement (g : SpatialGrid) (elementId : String) : SpatialGrid :=
  { g with cells := g.cells.filter fun t => t.2.2 ≠ elementId }

/-- `SpatialGrid::update_element` (spatial_index.rs:109): removes the id
from the cells of the old box, then adds it to the cells of the new box. -/
def SpatialGrid.updateElement (g : SpatialGrid) (elementId : String)
    (oldX oldY oldWidth oldHeight newX newY newWidth newHeight : ℚ) : SpatialGrid :=
  let oldCells := g.getIntersectingCells oldX oldY oldWidth oldHeight
  let g1 : SpatialGrid :=
    { g with cells := g.cells.filter fun t => ¬((t.1, t.2.1) ∈ oldCells ∧ t.2.2 = elementId) }
  g1.addElement elementId newX newY newWidth newHeight

/-- `SpatialIndexStats` (spatial_index.rs:123). -/
structure SpatialIndexStats where
  totalElements : ℕ
  totalCells : ℕ
  occupiedCells : ℕ
  averageElementsPerCell : ℚ
  maxElementsPerCell : ℕ
  memoryUsageBytes : ℕ
  lastQueryTimeMs : ℚ
deriving DecidableEq

/-- `HashMap::get`-style lookup on the association-list model. -/
def mapLookup (m : List (String × Element)) (id : String) : Option Element :=
  match m with
  | [] => none
  | kv :: rest => if kv.1 = id then some kv.2 else mapLookup rest id

/-- `HashMap::remove` on the association-list model. -/
def mapRemove (k : String) : List (String × Element) → List (String × Element)
  | [] => []
  | kv :: rest => if kv.1 = k then mapRemove k rest else kv :: mapRemove k rest

/-- `HashMap::insert` on the association-list model: replaces any
existing entry for the key. -/
def mapInsert (k : String) (v : Element) (m : List (String × Element)) :
    List (String × Element) :=
  (k, v) :: mapRemove k m

/-- `SpatialIndexManager` (spatial_index.rs:134); the three
`Mutex`-guarded fields are modelled as one state record. -/
structure SpatialIndexManager where
  grid : SpatialGrid
  elementMap : List (String × Element)
  stats : SpatialIndexStats
deriving DecidableEq

/-- `elements_intersect` (spatial_index.rs:443): strict overlap test. -/
def elementsIntersect (x1 y1 w1 h1 x2 y2 w2 h2 : ℚ) : Prop :=
  x1 < x2 + w2 ∧ x1 + w1 > x2 ∧ y1 < y2 + h2 ∧ y1 + h1 > y2

instance (x1 y1 w1 h1 x2 y2 w2 h2 : ℚ) :
    Decidable (elementsIntersect x1 y1 w1 h1 x2 y2 w2 h2) :=
  inferInstanceAs (Decidable (_ ∧ _ ∧ _ ∧ _))

/-- `point_in_element` (spatial_index.rs:447): inclusive-boundary test. -/
def pointInElement (px py ex ey ew eh : ℚ) : Prop :=
  px ≥ ex ∧ px ≤ ex + ew ∧ py ≥ ey ∧ py ≤ ey + eh

instance (px py ex ey ew eh : ℚ) : Decidable (pointInElement px py ex ey ew eh) :=
  inferInstanceAs (Decidable (_ ∧ _ ∧ _ ∧ _))

/-- The radicand of `distance_to_element` (spatial_index.rs:451): the
code computes `dx = max(max(px - ex, 0), ex + ew - px)` (and similarly
`dy`) and returns `sqrt(dx*dx + dy*dy)`. -/
def distanceSqToElement (px py : ℚ) (e : Element) : ℚ :=
  let dx := max (max (px - e.x) 0) (e.x + e.width - px)
  let dy := max (max (py - e.y) 0) (e.y + e.height - py)
  dx * dx + dy * dy

/-- `distance_to_element` (spatial_index.rs:451) with `f64::sqrt`
modelled by the parameter `sqrtFn`. -/
def distanceToElement (sqrtFn : ℚ → ℚ) (px py : ℚ) (e : Element) : ℚ :=
  sqrtFn (distanceSqToElement px py e)

/-- Modelled from the spec (§4.2 `findNearest`): the squared
point-to-rectangle clamped Euclidean distance — zero when the point lies
inside or on the boundary of the rectangle, otherwise the squared
distance to the nearest edge or corner. -/
def clampedDistanceSq (px py : ℚ) (e : Element) : ℚ :=
  let dx := max (e.x - px) (max 0 (px - (e.x + e.width)))
  let dy := max (e.y - py) (max 0 (py - (e.y + e.height)))
  dx * dx + dy * dy

/-- `SpatialIndexManager::update_stats` body (spatial_index.rs:457):
statistics recomputed from grid and element map; the last query time is
carried over unchanged. -/
def computeStats (grid : SpatialGrid) (elementMap : List (String × Element))
    (lastQueryTimeMs : ℚ) : SpatialIndexStats :=
  let occupiedList := (grid.cells.map fun t => (t.1, t.2.1)).dedup
  let occupiedCells := occupiedList.length
  let totalElementsInCells := grid.cells.length
  let maxElementsPerCell :=
    (occupiedList.map fun rc =>
      (grid.cells.filter fun t => (t.1, t.2.1) = rc).length).foldr max 0
  { totalElements := elementMap.length
    totalCells := grid.rows * grid.cols
    occupiedCells := occupiedCells
    averageElementsPerCell :=
      if 0 < occupiedCells then (totalElementsInCells : ℚ) / (occupiedCells : ℚ) else 0
    maxElementsPerCell := maxElementsPerCell
    memoryUsageBytes := grid.rows * grid.cols * 8
    lastQueryTimeMs := lastQueryTimeMs }

/-- Apply `update_stats` to a manager state. -/
def SpatialIndexManager.updateStats (s : SpatialIndexManager) : SpatialIndexManager :=
  { s with stats := computeStats s.grid s.elementMap s.stats.lastQueryTimeMs }

/-- `SpatialIndexManager::new` (spatial_index.rs:141).  Note: the given
`cellSize` is passed to `SpatialGrid::new` without validation. -/
def SpatialIndexManager.new (bounds : ℚ × ℚ × ℚ × ℚ) (cellSize : ℚ) :
    SpatialIndexManager :=
  let grid := SpatialGrid.new bounds cellSize
  let totalCells := grid.rows * grid.cols
  { grid := grid
    elementMap := []
    stats :=
      { totalElements := 0
        totalCells := totalCells
        occupiedCells := 0
        averageElementsPerCell := 0
        maxElementsPerCell := 0
        memoryUsageBytes := totalCells * 8
        lastQueryTimeMs := 0 } }

/-- `SpatialIndexManager::add_element` (spatial_index.rs:161): inserts
into the grid and overwrites the map entry; always returns `true`.  No
cells of a previous box for the same id are cleared. -/
def SpatialIndexManager.addElement (s : SpatialIndexManager) (e : Element) :
    SpatialIndexManager × Bool :=
  let s1 : SpatialIndexManager :=
    { s with grid := s.grid.addElement e.id e.x e.y e.width e.height
             elementMap := mapInsert e.id e s.elementMap }
  (s1.updateStats, true)

/-- `SpatialIndexManager::remove_element` (spatial_index.rs:173): always
returns `true`, even when the id is unknown. -/
def SpatialIndexManager.removeElement (s : SpatialIndexManager) (elementId : String) :
    SpatialIndexManager × Bool :=
  let s1 : SpatialIndexManager :=
    { s with grid := s.grid.removeElement elementId
             elementMap := mapRemove elementId s.elementMap }
  (s1.updateStats, true)

/-- `SpatialIndexManager::update_element` (spatial_index.rs:185):
fails with `false` and no state change when the id is unknown. -/
def SpatialIndexManager.updateElement (s : SpatialIndexManager) (elementId : String)
    (newElement : Element) : SpatialIndexManager × Bool :=
  match mapLookup s.elementMap elementId with
  | some oldElement =>
    let s1 : SpatialIndexManager :=
      { s with grid := s.grid.updateElement elementId
                 oldElement.x oldElement.y oldElement.width oldElement.height
                 newElement.x newElement.y newElement.width newElement.height
               elementMap := mapInsert elementId newElement s.elementMap }
    (s1.updateStats, true)
  | none => (s, false)

/-- The ids stored in one grid cell, as a list (`HashSet` iteration;
its order is unspecified in Rust). -/
def cellIdList (g : SpatialGrid) (rc : ℕ × ℕ) : List String :=
  (g.cells.filter fun t => t.1 = rc.1 ∧ t.2.1 = rc.2).map fun t => t.2.2

/-- The inner loop of `query_region` (spatial_index.rs:214): walks the
candidate ids with a `seen` set, keeping each element that exists in the
map and truly intersects the query region. -/
def queryLoop (m : List (String × Element)) (x y width height : ℚ) :
    List String → List Element → List String → List Element
  | [], res, _ => res
  | id :: rest, res, seen =>
    if id ∈ seen then queryLoop m x y width height rest res seen
    else
      match mapLookup m id with
      | some e =>
        if elementsIntersect e.x e.y e.width e.height x y width height
        then queryLoop m x y width height rest (res ++ [e]) (id :: seen)
        else queryLoop m x y width height rest res seen
      | none => queryLoop m x y width height rest res seen

/-- `SpatialIndexManager::query_region` (spatial_index.rs:204), returning
the element list (its JSON serialization in Rust). -/
def SpatialIndexManager.queryRegion (s : SpatialIndexManager) (x y width height : ℚ) :
    List Element :=
  let cells := s.grid.getIntersectingCells x y width height
  queryLoop s.elementMap x y width height
    (cells.flatMap fun rc => cellIdList s.grid rc) [] []

/-- `SpatialIndexManager::find_at_point` (spatial_index.rs:241). -/
def SpatialIndexManager.findAtPoint (s : SpatialIndexManager) (x y : ℚ) : List Element :=
  match s.grid.getCellCoords x y with
  | some rc =>
    (cellIdList s.grid rc).filterMap fun id =>
      match mapLookup s.elementMap id with
      | some e =>
        if pointInElement x y e.x e.y e.width e.height then some e else none
      | none => none
  | none => []

/-- `SpatialIndexManager::detect_collisions` (spatial_index.rs:322).
Note: unlike `query_region` there is no `seen` set, so an element shared
by several candidate cells is pushed once per cell. -/
def SpatialIndexManager.detectCollisions (s : SpatialIndexManager) (e : Element) :
    List Element :=
  (s.grid.getIntersectingCells e.x e.y e.width e.height).flatMap fun rc =>
    (cellIdList s.grid rc).filterMap fun id =>
      if id = e.id then none
      else
        match mapLookup s.elementMap id with
        | some other =>
          if elementsIntersect e.x e.y e.width e.height
              other.x other.y other.width other.height
          then some other else none
        | none => none

/-- `calculate_optimal_cell_size` (spatial_index.rs:382). -/
def calculateOptimalCellSize (sqrtFn : ℚ → ℚ) (elements : List Element)
    (bounds : ℚ × ℚ × ℚ × ℚ) : ℚ :=
  if elements = [] then 100
  else
    let elementCount : ℚ := elements.length
    let totalElementArea : ℚ := (elements.map fun e => e.width * e.height).sum
    let avgElementArea := totalElementArea / elementCount
    let targetElementsPerCell : ℚ := 10
    let targetCellArea := avgElementArea * targetElementsPerCell
    let optimalCellSize := sqrtFn targetCellArea
    min (max optimalCellSize 50) 500

/-- `SpatialIndexManager::rebuild` (spatial_index.rs:357). -/
def SpatialIndexManager.rebuild (sqrtFn : ℚ → ℚ) (s : SpatialIndexManager)
    (elements : List Element) (bounds : ℚ × ℚ × ℚ × ℚ) (cellSize : ℚ) :
    SpatialIndexManager :=
  let finalCellSize :=
    if cellSize ≤ 0 then calculateOptimalCellSize sqrtFn elements bounds else cellSize
  let grid0 := SpatialGrid.new bounds finalCellSize
  let grid := elements.foldl
    (fun g e => g.addElement e.id e.x e.y e.width e.height) grid0
  let elementMap := elements.foldl (fun m e => mapInsert e.id e m) []
  SpatialIndexManager.updateStats { grid := grid, elementMap := elementMap, stats := s.stats }

/-- `SpatialIndexManager::auto_optimize` (spatial_index.rs:406); the
`get_stats` JSON round-trip is the identity on the modelled stats. -/
def SpatialIndexManager.autoOptimize (sqrtFn : ℚ → ℚ) (s : SpatialIndexManager) :
    SpatialIndexManager × Bool :=
  if s.stats.totalElements > 1000 ∧
      (s.stats.averageElementsPerCell > 100 ∨ s.stats.maxElementsPerCell > 200)
  then (s.rebuild sqrtFn (s.elementMap.map fun kv => kv.2) (0, 0, 2000, 2000) 0, true)
  else (s, false)

/-- `SpatialIndexManager::update_bounds` (spatial_index.rs:428). -/
def SpatialIndexManager.updateBounds (sqrtFn : ℚ → ℚ) (s : SpatialIndexManager)
    (bounds : ℚ × ℚ × ℚ × ℚ) : SpatialIndexManager :=
  s.rebuild sqrtFn (s.elementMap.map fun kv => kv.2) bounds s.grid.cellSize

/-! ### Operation sequences and the membership invariant -/

/-- One mutation call on the index manager. -/
inductive SpatialOp where
  | add (e : Element)
  | remove (id : String)
  | update (id : String) (e : Element)
  | rebuildOp (elements : List Element) (bounds : ℚ × ℚ × ℚ × ℚ) (cellSize : ℚ)
deriving DecidableEq

def applyOp (sqrtFn : ℚ → ℚ) (s : SpatialIndexManager) : SpatialOp → SpatialIndexManager
  | .add e => (s.addElement e).1
  | .remove id => (s.removeElement id).1
  | .update id e => (s.updateElement id e).1
  | .rebuildOp es b cs => s.rebuild sqrtFn es b cs

def applyOps (sqrtFn : ℚ → ℚ) (s : SpatialIndexManager) :
    List SpatialOp → SpatialIndexManager
  | [] => s
  | op :: rest => applyOps sqrtFn (applyOp sqrtFn s op) rest

/-- Freshness side condition: `add` is only called on ids not indexed
yet, and `rebuild` lists carry pairwise distinct ids. -/
def opFresh (s : SpatialIndexManager) : SpatialOp → Prop
  | .add e => mapLookup s.elementMap e.id = none
  | .rebuildOp es _ _ => (es.map Element.id).Nodup
  | _ => True

instance (s : SpatialIndexManager) (op : SpatialOp) : Decidable (opFresh s op) := by
  cases op <;> simp only [opFresh] <;> infer_instance

/-- Freshness of a whole operation sequence, as an executable check. -/
def freshSeqB (sqrtFn : ℚ → ℚ) : SpatialIndexManager → List SpatialOp → Bool
  | _, [] => true
  | s, op :: rest => decide (opFresh s op) && freshSeqB sqrtFn (applyOp sqrtFn s op) rest

/-- The Grid membership invariant of spec §3: an id sits in exactly the
cells returned by `get_intersecting_cells` for its current Registry box. -/
def Inv (s : SpatialIndexManager) : Prop :=
  ∀ (id : String) (r c : ℕ), (r, c, id) ∈ s.grid.cells ↔
    ∃ e, mapLookup s.elementMap id = some e ∧
      (r, c) ∈ s.grid.getIntersectingCells e.x e.y e.width e.height

/-! ### Additional state predicates -/

/-- Every id present in some grid cell is indexed in the element map. -/
def NoOrphans (s : SpatialIndexManager) : Prop :=
  ∀ t ∈ s.grid.cells, mapLookup s.elementMap t.2.2 ≠ none

/-- The stored statistics agree with a recomputation from grid and map. -/
def StatsOk (s : SpatialIndexManager) : Prop :=
  s.stats = computeStats s.grid s.elementMap s.stats.lastQueryTimeMs

/-- Every map entry stores an element whose `id` field equals its key. -/
def WellKeyed (s : SpatialIndexManager) : Prop :=
  ∀ kv ∈ s.elementMap, kv.2.id = kv.1

/-- The element map holds pairwise distinct keys. -/
def NodupKeys (s : SpatialIndexManager) : Prop :=
  (s.elementMap.map Prod.fst).Nodup

instance (s : SpatialIndexManager) : Decidable (NoOrphans s) :=
  inferInstanceAs (Decidable (∀ t ∈ s.grid.cells, mapLookup s.elementMap t.2.2 ≠ none))

instance (s : SpatialIndexManager) : Decidable (StatsOk s) :=
  inferInstanceAs
    (Decidable (s.stats = computeStats s.grid s.elementMap s.stats.lastQueryTimeMs))

instance (s : SpatialIndexManager) : Decidable (WellKeyed s) :=
  inferInstanceAs (Decidable (∀ kv ∈ s.elementMap, kv.2.id = kv.1))

instance (s : SpatialIndexManager) : Decidable (NodupKeys s) :=
  inferInstanceAs (Decidable (s.elementMap.map Prod.fst).Nodup)

/-- Modelled from the spec (§4.3): the density formula
`clamp(sqrt(averageItemArea × targetDensity), 50, 500)` with
`targetDensity = 10`, defaulting to `100` on an empty item list. -/
def specOptimalCellSize (sqrtFn : ℚ → ℚ) (elements : List Element) : ℚ :=
  if elements = [] then 100
  else
    let avgArea := ((elements.map fun e => e.width * e.height).sum) /
      (elements.length : ℚ)
    min (max (sqrtFn (avgArea * 10)) 50) 500

/-! ### Concrete states used by counterexamples and witnesses -/

/-- A 2×2 universe `(0,0,200,200)` with cell size 100 in which `"e1"` is
added at `(0,0,10,10)` and then re-added at `(150,150,10,10)`. -/
def overwriteState : SpatialIndexManager :=
  applyOps (fun q => q) (SpatialIndexManager.new (0, 0, 200, 200) 100)
    [SpatialOp.add ⟨"e1", 0, 0, 10, 10⟩, SpatialOp.add ⟨"e1", 150, 150, 10, 10⟩]

/-- The same universe holding one zero-width element `"z"`. -/
def zeroWidthState : SpatialIndexManager :=
  ((SpatialIndexManager.new (0, 0, 200, 200) 100).addElement ⟨"z", 5, 5, 0, 10⟩).1

/-- The same universe holding one element `"o"` spanning two cells. -/
def twoCellState : SpatialIndexManager :=
  ((SpatialIndexManager.new (0, 0, 200, 200) 100).addElement ⟨"o", 50, 50, 100, 10⟩).1

/-- The same universe holding `"e" = (0,0,100,10)`, whose right edge sits
exactly on the cell boundary `x = 100`. -/
def edgeState : SpatialIndexManager :=
  applyOps (fun q => q) (SpatialIndexManager.new (0, 0, 200, 200) 100)
    [SpatialOp.add ⟨"e", 0, 0, 100, 10⟩]

/-- A concrete 2×2 grid over `(0,0,200,200)` with cell size 100. -/
def smallGrid : SpatialGrid := SpatialGrid.new (0, 0, 200, 200) 100

/-- A one-element state whose statistics record an over-dense grid, so
that `auto_optimize` fires. -/
def denseStatsState : SpatialIndexManager :=
  { grid := SpatialGrid.new (0, 0, 300, 300) 100
    elementMap := [("a", ⟨"a", 10, 10, 20, 20⟩)]
    stats :=
      { totalElements := 2000
        totalCells := 9
        occupiedCells := 1
        averageElementsPerCell := 1
        maxElementsPerCell := 300
        memoryUsageBytes := 72
        lastQueryTimeMs := 0 } }

/-! ### Association-list map lemmas -/

theorem mapLookup_mapRemove_self (m : List (String × Element)) (k : String) :
    mapLookup (mapRemove k m) k = none := by
  induction m with
  | nil => rfl
  | cons kv rest ih =>
    by_cases h : kv.1 = k
    · simpa [mapRemove, h] using ih
    · simpa [mapRemove, mapLookup, h] using ih

theorem mapLookup_mapRemove_ne (m : List (String × Element)) (k id : String)
    (h : id ≠ k) : mapLookup (mapRemove k m) id = mapLookup m id := by
  induction m with
  | nil => rfl
  | cons kv rest ih =>
    simp only [mapRemove]
    by_cases hk : kv.1 = k
    · have hkid : kv.1 ≠ id := by rw [hk]; exact Ne.symm h
      rw [if_pos hk, ih]
      conv_rhs => rw [mapLookup]
      rw [if_neg hkid]
    · rw [if_neg hk]
      conv_lhs => rw [mapLookup]
      conv_rhs => rw [mapLookup]
      by_cases hid : kv.1 = id
      · rw [if_pos hid, if_pos hid]
      · rw [if_neg hid, if_neg hid, ih]

theorem mapLookup_mapInsert (m : List (String × Element)) (k id : String) (v : Element) :
    mapLookup (mapInsert k v m) id = if k = id then some v else mapLookup m id := by
  by_cases h : k = id
  · simp [mapInsert, mapLookup, h]
  · simp [mapInsert, mapLookup, h, mapLookup_mapRemove_ne m k id (fun hc => h hc.symm)]

theorem mapLookup_eq_none_iff (m : List (String × Element)) (id : String) :
    mapLookup m id = none ↔ ∀ kv ∈ m, kv.1 ≠ id := by
  induction m with
  | nil => simp [mapLookup]
  | cons kv rest ih =>
    by_cases h : kv.1 = id
    · simp [mapLookup, h]
    · simp [mapLookup, h, ih]

theorem mapLookup_mem (m : List (String × Element)) (id : String) (e : Element) :
    mapLookup m id = some e → (id, e) ∈ m := by
  induction m with
  | nil => intro h; simp [mapLookup] at h
  | cons kv rest ih =>
    intro h
    rw [mapLookup] at h
    by_cases hk : kv.1 = id
    · rw [if_pos hk] at h
      have he : kv.2 = e := Option.some.inj h
      have hkv : kv = (id, e) := by
        obtain ⟨k1, v1⟩ := kv
        simp only at hk he
        rw [hk, he]
      rw [← hkv]
      exact List.mem_cons_self kv rest
    · rw [if_neg hk] at h
      exact List.mem_cons_of_mem _ (ih h)

theorem mapRemove_eq_self (m : List (String × Element)) (k : String)
    (h : ∀ kv ∈ m, kv.1 ≠ k) : mapRemove k m = m := by
  induction m with
  | nil => rfl
  | cons kv rest ih =>
    have h1 : kv.1 ≠ k := h kv (List.mem_cons_self kv rest)
    have h2 : ∀ kv' ∈ rest, kv'.1 ≠ k := fun kv' hm => h kv' (List.mem_cons_of_mem _ hm)
    simp [mapRemove, h1, ih h2]

/-! ### Grid lemmas -/

theorem getIntersectingCells_setCells (g : SpatialGrid) (cs : List (ℕ × ℕ × String))
    (x y w h : ℚ) :
    SpatialGrid.getIntersectingCells { g with cells := cs } x y w h =
      g.getIntersectingCells x y w h := rfl

theorem getCellCoords_setCells (g : SpatialGrid) (cs : List (ℕ × ℕ × String)) (x y : ℚ) :
    SpatialGrid.getCellCoords { g with cells := cs } x y = g.getCellCoords x y := rfl

theorem addElement_getIntersectingCells (g : SpatialGrid) (eid : String)
    (x y w h a b c d : ℚ) :
    (g.addElement eid x y w h).getIntersectingCells a b c d =
      g.getIntersectingCells a b c d := rfl

theorem mem_hashInsert (cs : List (ℕ × ℕ × String)) (t t0 : ℕ × ℕ × String) :
    t ∈ hashInsert cs t0 ↔ t = t0 ∨ t ∈ cs := by
  unfold hashInsert
  by_cases h0 : t0 ∈ cs
  · rw [if_pos h0]
    constructor
    · exact Or.inr
    · rintro (rfl | hm)
      · exact h0
      · exact hm
  · rw [if_neg h0]
    exact List.mem_cons

theorem mem_foldHashInsert (ls : List (ℕ × ℕ × String)) (cs : List (ℕ × ℕ × String))
    (t : ℕ × ℕ × String) :
    t ∈ ls.foldl hashInsert cs ↔ t ∈ cs ∨ t ∈ ls := by
  induction ls generalizing cs with
  | nil => simp
  | cons t0 rest ih =>
    simp only [List.foldl_cons]
    rw [ih, mem_hashInsert]
    constructor
    · rintro ((rfl | hm) | hm)
      · exact Or.inr (List.mem_cons_self _ _)
      · exact Or.inl hm
      · exact Or.inr (List.mem_cons_of_mem _ hm)
    · rintro (hm | hm)
      · exact Or.inl (Or.inr hm)
      · rcases List.mem_cons.1 hm with rfl | hm'
        · exact Or.inl (Or.inl rfl)
        · exact Or.inr hm'

theorem mem_addElement_cells (g : SpatialGrid) (eid : String) (x y w h : ℚ)
    (r c : ℕ) (i : String) :
    (r, c, i) ∈ (g.addElement eid x y w h).cells ↔
      (r, c, i) ∈ g.cells ∨ ((r, c) ∈ g.getIntersectingCells x y w h ∧ i = eid) := by
  show (r, c, i) ∈ ((g.getIntersectingCells x y w h).map
      fun rc => (rc.1, rc.2, eid)).foldl hashInsert g.cells ↔ _
  rw [mem_foldHashInsert]
  apply or_congr_right
  rw [List.mem_map]
  constructor
  · rintro ⟨rc, hrc, heq⟩
    obtain ⟨h1, h2, h3⟩ : rc.1 = r ∧ rc.2 = c ∧ eid = i := by
      simpa [Prod.ext_iff] using heq
    refine ⟨?_, h3.symm⟩
    have hrc2 : rc = (r, c) := by rw [Prod.ext_iff]; exact ⟨h1, h2⟩
    rwa [hrc2] at hrc
  · rintro ⟨hrc, rfl⟩
    exact ⟨(r, c), hrc, rfl⟩

theorem mem_removeElement_cells (g : SpatialGrid) (eid : String) (r c : ℕ) (i : String) :
    (r, c, i) ∈ (g.removeElement eid).cells ↔ (r, c, i) ∈ g.cells ∧ i ≠ eid := by
  simp [SpatialGrid.removeElement, List.mem_filter]

theorem mem_updateElement_cells (g : SpatialGrid) (eid : String)
    (ox oy ow oh nx ny nw nh : ℚ) (r c : ℕ) (i : String) :
    (r, c, i) ∈ (g.updateElement eid ox oy ow oh nx ny nw nh).cells ↔
      ((r, c, i) ∈ g.cells ∧
        ¬((r, c) ∈ g.getIntersectingCells ox oy ow oh ∧ i = eid)) ∨
      ((r, c) ∈ g.getIntersectingCells nx ny nw nh ∧ i = eid) := by
  simp only [SpatialGrid.updateElement]
  rw [mem_addElement_cells, getIntersectingCells_setCells]
  simp only [List.mem_filter, decide_not, Bool.not_eq_true', decide_eq_false_iff_not,
    decide_eq_true_eq]
  tauto

theorem mem_getIntersectingCells_lt (g : SpatialGrid) (x y w h : ℚ) (rc : ℕ × ℕ)
    (hm : rc ∈ g.getIntersectingCells x y w h) : rc.1 < g.rows ∧ rc.2 < g.cols := by
  unfold SpatialGrid.getIntersectingCells at hm
  simp only [List.mem_flatMap, List.mem_map] at hm
  obtain ⟨row, hrow, col, hcol, rfl⟩ := hm
  rw [List.mem_range'_1] at hrow hcol
  obtain ⟨hr1, hr2⟩ := hrow
  obtain ⟨hc1, hc2⟩ := hcol
  exact ⟨by omega, by omega⟩

theorem mem_cellIdList (g : SpatialGrid) (rc : ℕ × ℕ) (i : String) :
    i ∈ cellIdList g rc ↔ (rc.1, rc.2, i) ∈ g.cells := by
  unfold cellIdList
  rw [List.mem_map]
  constructor
  · rintro ⟨t, ht, rfl⟩
    rw [List.mem_filter] at ht
    obtain ⟨hm, hp⟩ := ht
    obtain ⟨h1, h2⟩ : t.1 = rc.1 ∧ t.2.1 = rc.2 := by
      simpa [decide_eq_true_eq] using hp
    have ht2 : t = (rc.1, rc.2, t.2.2) := by
      rw [Prod.ext_iff]; exact ⟨h1, by rw [Prod.ext_iff]; exact ⟨h2, rfl⟩⟩
    rwa [ht2] at hm
  · intro hm
    refine ⟨(rc.1, rc.2, i), List.mem_filter.2 ⟨hm, by simp⟩, rfl⟩

/-! ### Query characterizations -/

theorem elementsIntersect_comm (x1 y1 w1 h1 x2 y2 w2 h2 : ℚ) :
    elementsIntersect x1 y1 w1 h1 x2 y2 w2 h2 ↔
      elementsIntersect x2 y2 w2 h2 x1 y1 w1 h1 := by
  unfold elementsIntersect
  constructor <;> rintro ⟨a, b, c, d⟩ <;> exact ⟨b, a, d, c⟩

theorem mem_queryLoop (m : List (String × Element)) (x y w h : ℚ) (o : Element) :
    ∀ (ids : List String) (res : List Element) (seen : List String),
    (o ∈ queryLoop m x y w h ids res seen ↔
      o ∈ res ∨ ∃ id ∈ ids, id ∉ seen ∧ mapLookup m id = some o ∧
        elementsIntersect o.x o.y o.width o.height x y w h) := by
  intro ids
  induction ids with
  | nil => intro res seen; simp [queryLoop]
  | cons id0 rest ih =>
    intro res seen
    simp only [queryLoop]
    by_cases hseen : id0 ∈ seen
    · rw [if_pos hseen, ih res seen]
      apply or_congr_right
      constructor
      · rintro ⟨id, hid, hns, hl, hi⟩
        exact ⟨id, List.mem_cons_of_mem _ hid, hns, hl, hi⟩
      · rintro ⟨id, hid, hns, hl, hi⟩
        rcases List.mem_cons.1 hid with rfl | hid'
        · exact absurd hseen hns
        · exact ⟨id, hid', hns, hl, hi⟩
    · rw [if_neg hseen]
      cases hl : mapLookup m id0 with
      | none =>
        rw [ih res seen]
        apply or_congr_right
        constructor
        · rintro ⟨id, hid, h1, h2, h3⟩
          exact ⟨id, List.mem_cons_of_mem _ hid, h1, h2, h3⟩
        · rintro ⟨id, hid, h1, h2, h3⟩
          rcases List.mem_cons.1 hid with rfl | hid'
          · rw [hl] at h2; exact absurd h2 (by simp)
          · exact ⟨id, hid', h1, h2, h3⟩
      | some e0 =>
        show (o ∈ if elementsIntersect e0.x e0.y e0.width e0.height x y w h
            then queryLoop m x y w h rest (res ++ [e0]) (id0 :: seen)
            else queryLoop m x y w h rest res seen) ↔
          (o ∈ res ∨ ∃ id ∈ id0 :: rest, id ∉ seen ∧ mapLookup m id = some o ∧
            elementsIntersect o.x o.y o.width o.height x y w h)
        by_cases hint : elementsIntersect e0.x e0.y e0.width e0.height x y w h
        · rw [if_pos hint, ih (res ++ [e0]) (id0 :: seen)]
          constructor
          · rintro (hres | ⟨id, hid, h1, h2, h3⟩)
            · rcases List.mem_append.1 hres with hres' | hres'
              · exact Or.inl hres'
              · have : o = e0 := by simpa using hres'
                subst this
                exact Or.inr ⟨id0, List.mem_cons_self _ _, hseen, hl, hint⟩
            · refine Or.inr ⟨id, List.mem_cons_of_mem _ hid, ?_, h2, h3⟩
              intro hmem; exact h1 (List.mem_cons_of_mem _ hmem)
          · rintro (hres | ⟨id, hid, h1, h2, h3⟩)
            · exact Or.inl (List.mem_append_left _ hres)
            · by_cases hid0 : id = id0
              · subst hid0
                rw [hl] at h2
                have : e0 = o := Option.some.inj h2
                subst this
                exact Or.inl (List.mem_append_right _ (by simp))
              · rcases List.mem_cons.1 hid with heq | hid'
                · exact absurd heq hid0
                · refine Or.inr ⟨id, hid', ?_, h2, h3⟩
                  intro hc
                  exact (List.mem_cons.1 hc).elim hid0 h1
        · rw [if_neg hint, ih res seen]
          apply or_congr_right
          constructor
          · rintro ⟨id, hid, h1, h2, h3⟩
            exact ⟨id, List.mem_cons_of_mem _ hid, h1, h2, h3⟩
          · rintro ⟨id, hid, h1, h2, h3⟩
            rcases List.mem_cons.1 hid with rfl | hid'
            · rw [hl] at h2
              have : e0 = o := Option.some.inj h2
              subst this
              exact absurd h3 hint
            · exact ⟨id, hid', h1, h2, h3⟩

theorem mem_queryRegion (s : SpatialIndexManager) (x y w h : ℚ) (o : Element) :
    o ∈ s.queryRegion x y w h ↔
      ∃ id, (∃ rc ∈ s.grid.getIntersectingCells x y w h,
          (rc.1, rc.2, id) ∈ s.grid.cells) ∧
        mapLookup s.elementMap id = some o ∧
        elementsIntersect o.x o.y o.width o.height x y w h := by
  unfold SpatialIndexManager.queryRegion
  rw [mem_queryLoop]
  simp only [List.not_mem_nil, false_or, List.mem_flatMap, mem_cellIdList,
    not_false_eq_true, true_and]

theorem mem_findAtPoint (s : SpatialIndexManager) (x y : ℚ) (o : Element) :
    o ∈ s.findAtPoint x y ↔
      ∃ rc, s.grid.getCellCoords x y = some rc ∧
        (∃ id, (rc.1, rc.2, id) ∈ s.grid.cells ∧ mapLookup s.elementMap id = some o) ∧
        pointInElement x y o.x o.y o.width o.height := by
  unfold SpatialIndexManager.findAtPoint
  cases hcc : s.grid.getCellCoords x y with
  | none => simp
  | some rc0 =>
    simp only [List.mem_filterMap, mem_cellIdList, Option.some.injEq]
    constructor
    · rintro ⟨id, hid, hf⟩
      cases hl : mapLookup s.elementMap id with
      | none => rw [hl] at hf; simp at hf
      | some e =>
        rw [hl] at hf
        simp only at hf
        by_cases hp : pointInElement x y e.x e.y e.width e.height
        · rw [if_pos hp] at hf
          obtain rfl := Option.some.inj hf
          exact ⟨rc0, rfl, ⟨id, hid, hl⟩, hp⟩
        · rw [if_neg hp] at hf; simp at hf
    · rintro ⟨rc, hrc, ⟨id, hmem, hl⟩, hp⟩
      obtain rfl : rc0 = rc := hrc
      refine ⟨id, hmem, ?_⟩
      rw [hl]
      simp only [if_pos hp]

theorem mem_detectCollisions (s : SpatialIndexManager) (e : Element) (o : Element) :
    o ∈ s.detectCollisions e ↔
      ∃ id, (∃ rc ∈ s.grid.getIntersectingCells e.x e.y e.width e.height,
          (rc.1, rc.2, id) ∈ s.grid.cells) ∧
        id ≠ e.id ∧ mapLookup s.elementMap id = some o ∧
        elementsIntersect e.x e.y e.width e.height o.x o.y o.width o.height := by
  unfold SpatialIndexManager.detectCollisions
  simp only [List.mem_flatMap, List.mem_filterMap, mem_cellIdList]
  constructor
  · rintro ⟨rc, hrc, id, hmem, hf⟩
    by_cases hide : id = e.id
    · rw [if_pos hide] at hf; simp at hf
    · rw [if_neg hide] at hf
      cases hl : mapLookup s.elementMap id with
      | none => rw [hl] at hf; simp at hf
      | some other =>
        rw [hl] at hf
        simp only at hf
        by_cases hint : elementsIntersect e.x e.y e.width e.height
            other.x other.y other.width other.height
        · rw [if_pos hint] at hf
          obtain rfl := Option.some.inj hf
          exact ⟨id, ⟨rc, hrc, hmem⟩, hide, hl, hint⟩
        · rw [if_neg hint] at hf; simp at hf
  · rintro ⟨id, ⟨rc, hrc, hmem⟩, hide, hl, hint⟩
    refine ⟨rc, hrc, id, hmem, ?_⟩
    rw [if_neg hide, hl]
    simp only [if_pos hint]

theorem removeElement_getIntersectingCells (g : SpatialGrid) (eid : String)
    (a b c d : ℚ) :
    (g.removeElement eid).getIntersectingCells a b c d =
      g.getIntersectingCells a b c d := rfl

theorem updateElement_getIntersectingCells (g : SpatialGrid) (eid : String)
    (ox oy ow oh nx ny nw nh a b c d : ℚ) :
    (g.updateElement eid ox oy ow oh nx ny nw nh).getIntersectingCells a b c d =
      g.getIntersectingCells a b c d := rfl

theorem inv_new (b : ℚ × ℚ × ℚ × ℚ) (cs : ℚ) : Inv (SpatialIndexManager.new b cs) := by
  intro id r c
  simp [SpatialIndexManager.new, SpatialGrid.new, mapLookup]

theorem inv_addElement (s : SpatialIndexManager) (e : Element)
    (hInv : Inv s) (hfresh : mapLookup s.elementMap e.id = none) :
    Inv (s.addElement e).1 := by
  intro id r c
  have hgrid : ((s.addElement e).1).grid =
    s.grid.addElement e.id e.x e.y e.width e.height := rfl
  have hmap : ((s.addElement e).1).elementMap = mapInsert e.id e s.elementMap := rfl
  rw [hgrid, hmap, mem_addElement_cells]
  simp only [addElement_getIntersectingCells, mapLookup_mapInsert]
  by_cases hid : e.id = id
  · subst hid
    simp only [if_pos rfl]
    constructor
    · rintro (hold | ⟨hrc, _⟩)
      · exfalso
        rcases (hInv e.id r c).1 hold with ⟨e', hl, _⟩
        rw [hfresh] at hl
        exact Option.noConfusion hl
      · exact ⟨e, rfl, hrc⟩
    · rintro ⟨e', he', hrc⟩
      obtain rfl : e = e' := Option.some.inj he'
      exact Or.inr ⟨hrc, by trivial⟩
  · simp only [if_neg hid]
    constructor
    · rintro (hold | ⟨_, heq⟩)
      · exact (hInv id r c).1 hold
      · exact absurd heq (fun hc => hid hc.symm)
    · intro hrhs
      exact Or.inl ((hInv id r c).2 hrhs)

theorem inv_removeElement (s : SpatialIndexManager) (eid : String)
    (hInv : Inv s) : Inv (s.removeElement eid).1 := by
  intro id r c
  have hgrid : ((s.removeElement eid).1).grid = s.grid.removeElement eid := rfl
  have hmap : ((s.removeElement eid).1).elementMap = mapRemove eid s.elementMap := rfl
  rw [hgrid, hmap, mem_removeElement_cells]
  simp only [removeElement_getIntersectingCells]
  by_cases hid : id = eid
  · subst hid
    simp only [mapLookup_mapRemove_self]
    constructor
    · rintro ⟨_, h⟩; exact absurd rfl h
    · rintro ⟨e, he, _⟩; exact Option.noConfusion he
  · simp only [mapLookup_mapRemove_ne _ _ _ hid]
    constructor
    · rintro ⟨hm, _⟩; exact (hInv id r c).1 hm
    · intro hr; exact ⟨(hInv id r c).2 hr, hid⟩

theorem inv_updateElement (s : SpatialIndexManager) (eid : String) (newE : Element)
    (hInv : Inv s) : Inv (s.updateElement eid newE).1 := by
  cases hl : mapLookup s.elementMap eid with
  | none =>
    have hs : (s.updateElement eid newE).1 = s := by
      simp only [SpatialIndexManager.updateElement, hl]
    rw [hs]
    exact hInv
  | some old =>
    intro id r c
    have hgrid : ((s.updateElement eid newE).1).grid =
        s.grid.updateElement eid old.x old.y old.width old.height
          newE.x newE.y newE.width newE.height := by
      simp only [SpatialIndexManager.updateElement, hl]
      rfl
    have hmap : ((s.updateElement eid newE).1).elementMap =
        mapInsert eid newE s.elementMap := by
      simp only [SpatialIndexManager.updateElement, hl]
      rfl
    rw [hgrid, hmap, mem_updateElement_cells]
    simp only [updateElement_getIntersectingCells, mapLookup_mapInsert]
    by_cases hid : eid = id
    · subst hid
      simp only [if_pos rfl]
      have hcells : ∀ hm : (r, c, eid) ∈ s.grid.cells,
          (r, c) ∈ s.grid.getIntersectingCells old.x old.y old.width old.height := by
        intro hm
        rcases (hInv eid r c).1 hm with ⟨e', hl', hrc⟩
        rw [hl] at hl'
        obtain rfl : old = e' := Option.some.inj hl'
        exact hrc
      constructor
      · rintro (⟨hm, hnot⟩ | ⟨hrc, _⟩)
        · exact absurd ⟨hcells hm, by trivial⟩ hnot
        · exact ⟨newE, rfl, hrc⟩
      · rintro ⟨e', he', hrc⟩
        obtain rfl : newE = e' := Option.some.inj he'
        exact Or.inr ⟨hrc, by trivial⟩
    · simp only [if_neg hid]
      constructor
      · rintro (⟨hm, _⟩ | ⟨_, heq⟩)
        · exact (hInv id r c).1 hm
        · exact absurd heq (fun hc => hid hc.symm)
      · intro hr
        refine Or.inl ⟨(hInv id r c).2 hr, ?_⟩
        rintro ⟨_, heq⟩
        exact hid heq.symm

theorem foldAdd_getIntersectingCells (es : List Element) (g : SpatialGrid)
    (x y w h : ℚ) :
    SpatialGrid.getIntersectingCells
        (es.foldl (fun g e => g.addElement e.id e.x e.y e.width e.height) g)
        x y w h = g.getIntersectingCells x y w h := by
  induction es generalizing g with
  | nil => rfl
  | cons e rest ih =>
    simp only [List.foldl_cons]
    rw [ih]
    rfl

theorem mem_foldAdd_cells (es : List Element) (g : SpatialGrid) (r c : ℕ) (i : String) :
    (r, c, i) ∈ (es.foldl
        (fun g e => g.addElement e.id e.x e.y e.width e.height) g).cells ↔
      (r, c, i) ∈ g.cells ∨ ∃ e ∈ es, e.id = i ∧
        (r, c) ∈ g.getIntersectingCells e.x e.y e.width e.height := by
  induction es generalizing g with
  | nil => simp
  | cons e0 rest ih =>
    simp only [List.foldl_cons]
    rw [ih, mem_addElement_cells]
    simp only [addElement_getIntersectingCells]
    constructor
    · rintro ((hg | ⟨hrc, rfl⟩) | ⟨e, he, hei, hrc⟩)
      · exact Or.inl hg
      · exact Or.inr ⟨e0, List.mem_cons_self _ _, rfl, hrc⟩
      · exact Or.inr ⟨e, List.mem_cons_of_mem _ he, hei, hrc⟩
    · rintro (hg | ⟨e, he, hei, hrc⟩)
      · exact Or.inl (Or.inl hg)
      · rcases List.mem_cons.1 he with rfl | he'
        · exact Or.inl (Or.inr ⟨hrc, hei.symm⟩)
        · exact Or.inr ⟨e, he', hei, hrc⟩

theorem foldInsert_lookup_not_mem :
    ∀ (es : List Element) (m : List (String × Element)) (id : String),
    (∀ e ∈ es, e.id ≠ id) →
    mapLookup (es.foldl (fun m e => mapInsert e.id e m) m) id = mapLookup m id := by
  intro es
  induction es with
  | nil => intro m id _; rfl
  | cons e0 rest ih =>
    intro m id h
    simp only [List.foldl_cons]
    rw [ih _ id (fun e he => h e (List.mem_cons_of_mem _ he))]
    rw [mapLookup_mapInsert, if_neg (h e0 (List.mem_cons_self _ _))]

theorem foldInsert_lookup_mem :
    ∀ (es : List Element) (m : List (String × Element)) (e : Element) (id : String),
    (es.map Element.id).Nodup → e ∈ es → e.id = id →
    mapLookup (es.foldl (fun m e => mapInsert e.id e m) m) id = some e := by
  intro es
  induction es with
  | nil => intro m e id _ he _; simp at he
  | cons e0 rest ih =>
    intro m e id hnd he hid
    have hnd' : e0.id ∉ rest.map Element.id ∧ (rest.map Element.id).Nodup := by
      rw [List.map_cons, List.nodup_cons] at hnd
      exact hnd
    simp only [List.foldl_cons]
    rcases List.mem_cons.1 he with rfl | he'
    · have hrest : ∀ e' ∈ rest, e'.id ≠ id := by
        intro e' he'c hc
        exact hnd'.1 (List.mem_map.2 ⟨e', he'c, by rw [hc, ← hid]⟩)
      rw [foldInsert_lookup_not_mem rest _ id hrest]
      rw [mapLookup_mapInsert, if_pos hid]
    · exact ih _ e id hnd'.2 he' hid

theorem foldInsert_lookup_some_inv :
    ∀ (es : List Element) (m : List (String × Element)) (id : String) (e : Element),
    mapLookup (es.foldl (fun m e => mapInsert e.id e m) m) id = some e →
    (e ∈ es ∧ e.id = id) ∨ mapLookup m id = some e := by
  intro es
  induction es with
  | nil => intro m id e h; exact Or.inr h
  | cons e0 rest ih =>
    intro m id e h
    simp only [List.foldl_cons] at h
    rcases ih _ _ _ h with ⟨he, hid⟩ | hm
    · exact Or.inl ⟨List.mem_cons_of_mem _ he, hid⟩
    · rw [mapLookup_mapInsert] at hm
      by_cases h0 : e0.id = id
      · rw [if_pos h0] at hm
        obtain rfl : e0 = e := Option.some.inj hm
        exact Or.inl ⟨List.mem_cons_self _ _, h0⟩
      · rw [if_neg h0] at hm
        exact Or.inr hm

theorem inv_rebuild (sqrtFn : ℚ → ℚ) (s : SpatialIndexManager) (es : List Element)
    (b : ℚ × ℚ × ℚ × ℚ) (cs : ℚ) (hnd : (es.map Element.id).Nodup) :
    Inv (s.rebuild sqrtFn es b cs) := by
  intro id r c
  have hgrid : (s.rebuild sqrtFn es b cs).grid =
      es.foldl (fun g e => g.addElement e.id e.x e.y e.width e.height)
        (SpatialGrid.new b
          (if cs ≤ 0 then calculateOptimalCellSize sqrtFn es b else cs)) := rfl
  have hmap : (s.rebuild sqrtFn es b cs).elementMap =
      es.foldl (fun m e => mapInsert e.id e m) [] := rfl
  rw [hgrid, hmap, mem_foldAdd_cells]
  simp only [foldAdd_getIntersectingCells]
  constructor
  · rintro (hg | ⟨e, he, hei, hrc⟩)
    · exact absurd hg (List.not_mem_nil _)
    · exact ⟨e, foldInsert_lookup_mem es [] e id hnd he hei, hrc⟩
  · rintro ⟨e, hl, hrc⟩
    rcases foldInsert_lookup_some_inv es [] id e hl with ⟨he, hid⟩ | hm
    · exact Or.inr ⟨e, he, hid, hrc⟩
    · exact absurd hm (by simp [mapLookup])

theorem inv_applyOp (sqrtFn : ℚ → ℚ) (s : SpatialIndexManager) (op : SpatialOp)
    (hInv : Inv s) (hf : opFresh s op) : Inv (applyOp sqrtFn s op) := by
  cases op with
  | add e => exact inv_addElement s e hInv hf
  | remove id => exact inv_removeElement s id hInv
  | update id e => exact inv_updateElement s id e hInv
  | rebuildOp es b cs => exact inv_rebuild sqrtFn s es b cs hf

theorem inv_applyOps (sqrtFn : ℚ → ℚ) :
    ∀ (ops : List SpatialOp) (s : SpatialIndexManager),
    Inv s → freshSeqB sqrtFn s ops = true → Inv (applyOps sqrtFn s ops) := by
  intro ops
  induction ops with
  | nil => intro s h _; exact h
  | cons op rest ih =>
    intro s hInv hf
    simp only [freshSeqB, Bool.and_eq_true, decide_eq_true_eq] at hf
    exact ih _ (inv_applyOp sqrtFn s op hInv hf.1) hf.2

/-! ### Fold and rebuild helper lemmas -/

theorem foldAdd_cellSize (es : List Element) (g : SpatialGrid) :
    (es.foldl (fun g e => g.addElement e.id e.x e.y e.width e.height) g).cellSize =
      g.cellSize := by
  induction es generalizing g with
  | nil => rfl
  | cons e rest ih =>
    simp only [List.foldl_cons]
    rw [ih]
    rfl

theorem foldAdd_bounds (es : List Element) (g : SpatialGrid) :
    (es.foldl (fun g e => g.addElement e.id e.x e.y e.width e.height) g).bounds =
      g.bounds := by
  induction es generalizing g with
  | nil => rfl
  | cons e rest ih =>
    simp only [List.foldl_cons]
    rw [ih]
    rfl

theorem foldAdd_rows (es : List Element) (g : SpatialGrid) :
    (es.foldl (fun g e => g.addElement e.id e.x e.y e.width e.height) g).rows =
      g.rows := by
  induction es generalizing g with
  | nil => rfl
  | cons e rest ih =>
    simp only [List.foldl_cons]
    rw [ih]
    rfl

theorem foldAdd_cols (es : List Element) (g : SpatialGrid) :
    (es.foldl (fun g e => g.addElement e.id e.x e.y e.width e.height) g).cols =
      g.cols := by
  induction es generalizing g with
  | nil => rfl
  | cons e rest ih =>
    simp only [List.foldl_cons]
    rw [ih]
    rfl

theorem rebuild_grid_def (sqrtFn : ℚ → ℚ) (s : SpatialIndexManager) (es : List Element)
    (b : ℚ × ℚ × ℚ × ℚ) (cs : ℚ) :
    (s.rebuild sqrtFn es b cs).grid =
      es.foldl (fun g e => g.addElement e.id e.x e.y e.width e.height)
        (SpatialGrid.new b
          (if cs ≤ 0 then calculateOptimalCellSize sqrtFn es b else cs)) := rfl

theorem rebuild_elementMap_def (sqrtFn : ℚ → ℚ) (s : SpatialIndexManager)
    (es : List Element) (b : ℚ × ℚ × ℚ × ℚ) (cs : ℚ) :
    (s.rebuild sqrtFn es b cs).elementMap =
      es.foldl (fun m e => mapInsert e.id e m) [] := rfl

theorem rebuild_grid_cellSize (sqrtFn : ℚ → ℚ) (s : SpatialIndexManager)
    (es : List Element) (b : ℚ × ℚ × ℚ × ℚ) (cs : ℚ) :
    (s.rebuild sqrtFn es b cs).grid.cellSize =
      if cs ≤ 0 then calculateOptimalCellSize sqrtFn es b else cs := by
  rw [rebuild_grid_def, foldAdd_cellSize]
  rfl

theorem rebuild_grid_bounds (sqrtFn : ℚ → ℚ) (s : SpatialIndexManager)
    (es : List Element) (b : ℚ × ℚ × ℚ × ℚ) (cs : ℚ) :
    (s.rebuild sqrtFn es b cs).grid.bounds = b := by
  rw [rebuild_grid_def, foldAdd_bounds]
  rfl

/-! ### Claim C1 -/

/-- Claim C1, counterexample: after `add "e1" (0,0,10,10)` followed by
`add "e1" (150,150,10,10)`, the Registry holds the new box, yet cell
`(0,0)` — which only the previous box overlapped — still contains
`"e1"`, so the membership-equality invariant of the claim is violated. -/
theorem claim1_counterexample :
    mapLookup overwriteState.elementMap "e1" = some ⟨"e1", 150, 150, 10, 10⟩ ∧
    (0, 0, "e1") ∈ overwriteState.grid.cells ∧
    (0, 0) ∉ overwriteState.grid.getIntersectingCells 150 150 10 10 := by
  refine ⟨by decide, by decide, by decide⟩

/-- Claim C1 (amended): starting from a freshly constructed manager with
nonzero cell size, after any sequence of add/remove/update/rebuild calls
in which `add` is only invoked on ids not currently indexed and every
rebuild list carries pairwise distinct ids, the Grid membership
invariant holds: each id occupies exactly the in-universe cells computed
by `get_intersecting_cells` for its current Registry box.  (Re-adding an
existing id overwrites only the Registry record and leaves the id in
cells of the previous box, as the counterexample shows.) -/
theorem claim1_membership_invariant (sqrtFn : ℚ → ℚ) (b : ℚ × ℚ × ℚ × ℚ) (cs : ℚ)
    (ops : List SpatialOp) (hcs : cs ≠ 0)
    (hfresh : freshSeqB sqrtFn (SpatialIndexManager.new b cs) ops = true) :
    Inv (applyOps sqrtFn (SpatialIndexManager.new b cs) ops) :=
  inv_applyOps sqrtFn ops _ (inv_new b cs) hfresh

/-- Claim C1, witness: a fresh add sequence on a concrete manager. -/
theorem claim1_witness :
    Inv (applyOps (fun q => q) (SpatialIndexManager.new (0, 0, 200, 200) 100)
      [SpatialOp.add ⟨"a", 10, 10, 20, 20⟩, SpatialOp.remove "a"]) :=
  claim1_membership_invariant (fun q => q) (0, 0, 200, 200) 100
    [SpatialOp.add ⟨"a", 10, 10, 20, 20⟩, SpatialOp.remove "a"]
    (by norm_num) (by decide)

/-! ### Claim C2 -/

/-- Claim C2, counterexample: `"z"` was added with box `(5,5,0,10)` (the
data model allows zero width) and is indexed, yet `queryRegion` over
that very box excludes it, because the strict overlap test fails on
degenerate boxes. -/
theorem claim2_counterexample :
    mapLookup zeroWidthState.elementMap "z" = some ⟨"z", 5, 5, 0, 10⟩ ∧
    (⟨"z", 5, 5, 0, 10⟩ : Element) ∉ zeroWidthState.queryRegion 5 5 0 10 := by
  refine ⟨by decide, by decide⟩

/-- Claim C2 (amended): containment holds for every currently indexed
item whose box has positive width and height and overlaps at least one
in-universe cell: `queryRegion` over the item's own box returns it. -/
theorem claim2_containment (s : SpatialIndexManager) (id : String) (e : Element)
    (hInv : Inv s) (hl : mapLookup s.elementMap id = some e)
    (hw : 0 < e.width) (hh : 0 < e.height)
    (hcells : s.grid.getIntersectingCells e.x e.y e.width e.height ≠ []) :
    e ∈ s.queryRegion e.x e.y e.width e.height := by
  rw [mem_queryRegion]
  obtain ⟨rc, hrc⟩ := List.exists_mem_of_ne_nil _ hcells
  refine ⟨id, ⟨rc, hrc, ?_⟩, hl, ?_⟩
  · exact (hInv id rc.1 rc.2).2 ⟨e, hl, hrc⟩
  · exact ⟨by linarith, by linarith, by linarith, by linarith⟩

/-- Claim C2, witness: a concrete indexed element is returned by the
query over its own box. -/
theorem claim2_witness :
    (⟨"a", 10, 10, 20, 20⟩ : Element) ∈
      (applyOps (fun q => q) (SpatialIndexManager.new (0, 0, 200, 200) 100)
        [SpatialOp.add ⟨"a", 10, 10, 20, 20⟩]).queryRegion 10 10 20 20 :=
  claim2_containment _ "a" _
    (inv_applyOps (fun q => q) [SpatialOp.add ⟨"a", 10, 10, 20, 20⟩] _
      (inv_new (0, 0, 200, 200) 100) (by decide))
    (by decide) (by norm_num) (by norm_num) (by decide)

/-! ### Claim C3 -/

/-- Claim C3, counterexample: removing an id that was never added
returns `true`, not the failure signal `false` the claim requires. -/
theorem claim3_counterexample :
    ((SpatialIndexManager.new (0, 0, 200, 200) 100).removeElement "ghost").2 = true :=
  rfl

/-- Claim C3 (amended): on an unknown id, `update_element` returns
`false` and leaves the state unchanged, and `remove_element` also leaves
the entire state (grid, registry, statistics) unchanged — but it returns
`true`, never signalling the failure.  The state hypotheses say that
grid cells only hold indexed ids and that the stored statistics agree
with a recomputation, both of which hold for reachable states. -/
theorem claim3_unknown_id (s : SpatialIndexManager) (id : String) (newE : Element)
    (hno : NoOrphans s) (hst : StatsOk s)
    (hl : mapLookup s.elementMap id = none) :
    s.updateElement id newE = (s, false) ∧ s.removeElement id = (s, true) := by
  constructor
  · simp only [SpatialIndexManager.updateElement, hl]
  · have hgrid : s.grid.removeElement id = s.grid := by
      unfold SpatialGrid.removeElement
      have hf : s.grid.cells.filter (fun t => t.2.2 ≠ id) = s.grid.cells := by
        apply List.filter_eq_self.mpr
        intro t ht
        rw [decide_eq_true_eq]
        intro hc
        exact hno t ht (by rw [hc]; exact hl)
      rw [hf]
    have hmapr : mapRemove id s.elementMap = s.elementMap :=
      mapRemove_eq_self _ _ ((mapLookup_eq_none_iff _ _).1 hl)
    have hstate : (s.removeElement id).1 = s := by
      show SpatialIndexManager.updateStats
        { s with grid := s.grid.removeElement id
                 elementMap := mapRemove id s.elementMap } = s
      unfold SpatialIndexManager.updateStats
      rw [hgrid, hmapr]
      show { s with stats := computeStats s.grid s.elementMap s.stats.lastQueryTimeMs } = s
      rw [← hst]
    have hpair : s.removeElement id = ((s.removeElement id).1, true) := rfl
    rw [hpair, hstate]

/-- Claim C3, witness: concrete unknown-id mutations on a fresh manager. -/
theorem claim3_witness :
    (SpatialIndexManager.new (0, 0, 200, 200) 100).updateElement "ghost"
        ⟨"g", 0, 0, 1, 1⟩ = (SpatialIndexManager.new (0, 0, 200, 200) 100, false) ∧
    (SpatialIndexManager.new (0, 0, 200, 200) 100).removeElement "ghost" =
      (SpatialIndexManager.new (0, 0, 200, 200) 100, true) :=
  claim3_unknown_id _ "ghost" ⟨"g", 0, 0, 1, 1⟩ (by decide) (by decide) (by decide)

/-! ### Claim C4 -/

/-- Claim C4: the candidate distance of `find_nearest` is computed by
`distance_to_element`, whose `dx` is `max(max(px-ex,0), ex+ew-px)` —
the sign-flipped clamp.  At the point `(5,5)` inside the element
`(0,0,10,10)` the code's radicand is `50` (distance `√50 ≈ 7.07`),
whereas the clamped point-to-rectangle distance of the claim is `0`.
The spec's stated intent (zero inside the rectangle) identifies the
code's formula as a slip. -/
theorem claim4_distance_eval :
    pointInElement 5 5 0 0 10 10 ∧
    distanceSqToElement 5 5 ⟨"e", 0, 0, 10, 10⟩ = 50 ∧
    clampedDistanceSq 5 5 ⟨"e", 0, 0, 10, 10⟩ = 0 := by
  refine ⟨by decide, by decide, by decide⟩

/-! ### Claim C5 -/

/-- Claim C5, counterexample: `"o" = (50,50,100,10)` spans two cells and
collides with the probe `"p"` of the same box, so `detect_collisions`
pushes it once per cell: it appears twice in the result, while
`query_region` (which de-duplicates) returns it once.  The returned
collection is therefore not a set with each colliding item exactly once. -/
theorem claim5_counterexample :
    (twoCellState.detectCollisions ⟨"p", 50, 50, 100, 10⟩).count
        ⟨"o", 50, 50, 100, 10⟩ = 2 ∧
    (twoCellState.queryRegion 50 50 100 10).count ⟨"o", 50, 50, 100, 10⟩ = 1 := by
  refine ⟨by decide, by decide⟩

/-- Claim C5 (amended): as a set (ignoring the duplicates that
`detect_collisions` emits for items spanning several candidate cells),
the collisions of `e` are exactly the `query_region` result over `e`'s
box with elements keyed by `e.id` removed; the hypothesis says map
entries are keyed by their element's own id. -/
theorem claim5_detect_eq_query (s : SpatialIndexManager) (e : Element)
    (hwk : WellKeyed s) :
    (s.detectCollisions e).toFinset =
      (s.queryRegion e.x e.y e.width e.height).toFinset.filter
        fun o => o.id ≠ e.id := by
  ext o
  rw [List.mem_toFinset, Finset.mem_filter, List.mem_toFinset,
    mem_detectCollisions, mem_queryRegion]
  constructor
  · rintro ⟨id, hcell, hne, hl, hint⟩
    have hid : o.id = id := hwk (id, o) (mapLookup_mem _ _ _ hl)
    refine ⟨⟨id, hcell, hl, (elementsIntersect_comm _ _ _ _ _ _ _ _).1 hint⟩, ?_⟩
    rw [hid]
    exact hne
  · rintro ⟨⟨id, hcell, hl, hint⟩, hne⟩
    have hid : o.id = id := hwk (id, o) (mapLookup_mem _ _ _ hl)
    refine ⟨id, hcell, ?_, hl, (elementsIntersect_comm _ _ _ _ _ _ _ _).1 hint⟩
    rw [← hid]
    exact hne

/-- Claim C5, witness: the set equation on a concrete two-cell state. -/
theorem claim5_witness :
    (twoCellState.detectCollisions ⟨"p", 50, 50, 100, 10⟩).toFinset =
      (twoCellState.queryRegion 50 50 100 10).toFinset.filter
        fun o => o.id ≠ (⟨"p", 50, 50, 100, 10⟩ : Element).id :=
  claim5_detect_eq_query twoCellState ⟨"p", 50, 50, 100, 10⟩ (by decide)

/-! ### Claim C6 -/

/-- Claim C6, counterexample: constructing the Index Manager with
cellSize `-5` stores `-5` directly in the grid (yielding a degenerate
0×0 grid), even though the computed default for an empty index is 100:
the invalid value IS propagated into the grid at construction. -/
theorem claim6_counterexample :
    (SpatialIndexManager.new (0, 0, 200, 200) (-5)).grid.cellSize = -5 ∧
    (SpatialIndexManager.new (0, 0, 200, 200) (-5)).grid.rows = 0 ∧
    calculateOptimalCellSize (fun q => q) [] (0, 0, 200, 200) = 100 := by
  refine ⟨by decide, by decide, by decide⟩

/-- Claim C6 (amended): only `rebuild` substitutes the computed default
when cellSize ≤ 0; the constructor stores the given cellSize in the grid
unvalidated. -/
theorem claim6_substitution (sqrtFn : ℚ → ℚ) (s : SpatialIndexManager)
    (es : List Element) (b : ℚ × ℚ × ℚ × ℚ) (cs : ℚ) :
    (cs ≤ 0 → (s.rebuild sqrtFn es b cs).grid.cellSize =
      calculateOptimalCellSize sqrtFn es b) ∧
    (SpatialIndexManager.new b cs).grid.cellSize = cs := by
  constructor
  · intro hcs
    rw [rebuild_grid_cellSize, if_pos hcs]
  · rfl

/-- Claim C6, witness: concrete rebuild with cellSize `-1` adopts the
computed default while construction with `-1` keeps `-1`. -/
theorem claim6_witness :
    ((SpatialIndexManager.new (0, 0, 200, 200) 100).rebuild (fun q => q) []
        (0, 0, 200, 200) (-1)).grid.cellSize =
      calculateOptimalCellSize (fun q => q) [] (0, 0, 200, 200) ∧
    (SpatialIndexManager.new (0, 0, 200, 200) (-1)).grid.cellSize = -1 := by
  have h := claim6_substitution (fun q => q)
    (SpatialIndexManager.new (0, 0, 200, 200) 100) [] (0, 0, 200, 200) (-1)
  exact ⟨h.1 (by norm_num), h.2⟩

/-! ### Claim C7 -/

/-- Claim C7, counterexample: the point `(100,5)` lies within
`"e" = (0,0,100,10)` under the inclusive test (`100 ∈ [0,100]`), and
`"e"` is indexed, yet `find_at_point` misses it: the point falls in cell
`(0,1)` while the element's membership covers only cell `(0,0)`. -/
theorem claim7_counterexample :
    pointInElement 100 5 0 0 100 10 ∧
    mapLookup edgeState.elementMap "e" = some ⟨"e", 0, 0, 100, 10⟩ ∧
    (⟨"e", 0, 0, 100, 10⟩ : Element) ∉ edgeState.findAtPoint 100 5 := by
  refine ⟨by decide, by decide, by decide⟩

/-- Claim C7 (amended): for an indexed item, `find_at_point (x,y)`
returns it iff the point's cell exists, that cell is among the cells of
the item's box, and the inclusive point-in-box test passes.  The
inclusive test alone is not sufficient: a point on the box's far edge
that falls in the next cell (or outside the universe) is missed. -/
theorem claim7_findAtPoint (s : SpatialIndexManager) (x y : ℚ) (id : String)
    (e : Element) (hInv : Inv s) (hl : mapLookup s.elementMap id = some e) :
    e ∈ s.findAtPoint x y ↔
      (∃ rc, s.grid.getCellCoords x y = some rc ∧
        rc ∈ s.grid.getIntersectingCells e.x e.y e.width e.height) ∧
      pointInElement x y e.x e.y e.width e.height := by
  rw [mem_findAtPoint]
  constructor
  · rintro ⟨rc, hcc, ⟨id', hmem, hl'⟩, hp⟩
    rcases (hInv id' rc.1 rc.2).1 hmem with ⟨e', hl'', hrc⟩
    rw [hl'] at hl''
    obtain rfl : e = e' := Option.some.inj hl''
    exact ⟨⟨rc, hcc, hrc⟩, hp⟩
  · rintro ⟨⟨rc, hcc, hrc⟩, hp⟩
    exact ⟨rc, hcc, ⟨id, (hInv id rc.1 rc.2).2 ⟨e, hl, hrc⟩, hl⟩, hp⟩

/-- Claim C7, witness: at the interior point `(50,5)` the equivalence
instantiates on the concrete edge state. -/
theorem claim7_witness :
    (⟨"e", 0, 0, 100, 10⟩ : Element) ∈ edgeState.findAtPoint 50 5 ↔
      (∃ rc, edgeState.grid.getCellCoords 50 5 = some rc ∧
        rc ∈ edgeState.grid.getIntersectingCells 0 0 100 10) ∧
      pointInElement 50 5 0 0 100 10 := by
  exact claim7_findAtPoint edgeState 50 5 "e" ⟨"e", 0, 0, 100, 10⟩
    (inv_applyOps (fun q => q) [SpatialOp.add ⟨"e", 0, 0, 100, 10⟩] _
      (inv_new (0, 0, 200, 200) 100) (by decide))
    (by decide)

/-! ### Claim C8 -/

/-- Claim C8, counterexample: the point `(-50,50)` lies left of the
universe origin, so its floor-divided column is `-1`; the claim says the
result is `none`, but the saturating `as usize` cast clamps `-1` to `0`
and the code returns cell `(0,0)`. -/
theorem claim8_counterexample :
    smallGrid.getCellCoords (-50) 50 = some (0, 0) := by
  decide

/-- Claim C8 (amended): `get_cell_coords` floor-divides the offsets with
the `as usize` saturation, returning `none` exactly when a saturated
coordinate reaches `rows`/`cols`; points left of (or above) the origin
saturate to column (row) `0` instead of yielding `none`. -/
theorem claim8_cellCoords (g : SpatialGrid) (x y : ℚ) (hcs : 0 < g.cellSize) :
    (g.getCellCoords x y = none ↔
      g.rows ≤ (⌊(y - g.bounds.2.1) / g.cellSize⌋).toNat ∨
      g.cols ≤ (⌊(x - g.bounds.1) / g.cellSize⌋).toNat) ∧
    (x < g.bounds.1 → ∀ rc, g.getCellCoords x y = some rc → rc.2 = 0) := by
  constructor
  · simp only [SpatialGrid.getCellCoords]
    by_cases hc : (⌊(y - g.bounds.2.1) / g.cellSize⌋).toNat < g.rows ∧
        (⌊(x - g.bounds.1) / g.cellSize⌋).toNat < g.cols
    · rw [if_pos hc]
      constructor
      · intro hcontra
        exact Option.noConfusion hcontra
      · rintro (hle | hle)
        · exact absurd hc.1 (not_lt.2 hle)
        · exact absurd hc.2 (not_lt.2 hle)
    · rw [if_neg hc]
      constructor
      · intro _
        rcases not_and_or.1 hc with hr | hcl
        · exact Or.inl (not_lt.1 hr)
        · exact Or.inr (not_lt.1 hcl)
      · intro _
        rfl
  · intro hx rc hrc
    have hcol : (⌊(x - g.bounds.1) / g.cellSize⌋).toNat = 0 := by
      have hneg : (x - g.bounds.1) / g.cellSize < 0 :=
        div_neg_of_neg_of_pos (by linarith) hcs
      have hfl : ⌊(x - g.bounds.1) / g.cellSize⌋ < 0 := by
        have hle : ((⌊(x - g.bounds.1) / g.cellSize⌋ : ℤ) : ℚ) < 0 :=
          lt_of_le_of_lt (Int.floor_le _) hneg
        exact_mod_cast hle
      exact Int.toNat_eq_zero.2 (le_of_lt hfl)
    simp only [SpatialGrid.getCellCoords] at hrc
    by_cases hc : (⌊(y - g.bounds.2.1) / g.cellSize⌋).toNat < g.rows ∧
        (⌊(x - g.bounds.1) / g.cellSize⌋).toNat < g.cols
    · rw [if_pos hc] at hrc
      obtain rfl : _ = rc := Option.some.inj hrc
      exact hcol
    · rw [if_neg hc] at hrc
      exact Option.noConfusion hrc

/-- Claim C8, witness: instantiated on the concrete grid at `(-50,50)`. -/
theorem claim8_witness :
    (smallGrid.getCellCoords (-50) 50 = none ↔
      smallGrid.rows ≤ (⌊((50 : ℚ) - smallGrid.bounds.2.1) / smallGrid.cellSize⌋).toNat ∨
      smallGrid.cols ≤ (⌊((-50 : ℚ) - smallGrid.bounds.1) / smallGrid.cellSize⌋).toNat) ∧
    ((-50 : ℚ) < smallGrid.bounds.1 →
      ∀ rc, smallGrid.getCellCoords (-50) 50 = some rc → rc.2 = 0) :=
  claim8_cellCoords smallGrid (-50) 50 (by decide)

/-! ### Claim C9 -/

/-- Claim C9: `rebuild` invoked with cellSize ≤ 0 yields a grid cell
size equal to the spec density formula — 100 on an empty item list,
otherwise `clamp(sqrt(averageItemArea × 10), 50, 500)` — and therefore
always in `[50, 500]`.  `sqrt` is an arbitrary (uninterpreted) function
parameter, so the bounds hold in particular for `f64::sqrt`. -/
theorem claim9_density_bounds (sqrtFn : ℚ → ℚ) (s : SpatialIndexManager)
    (es : List Element) (b : ℚ × ℚ × ℚ × ℚ) (cs : ℚ) (hcs : cs ≤ 0) :
    50 ≤ (s.rebuild sqrtFn es b cs).grid.cellSize ∧
    (s.rebuild sqrtFn es b cs).grid.cellSize ≤ 500 ∧
    (s.rebuild sqrtFn es b cs).grid.cellSize = specOptimalCellSize sqrtFn es := by
  rw [rebuild_grid_cellSize, if_pos hcs]
  unfold calculateOptimalCellSize specOptimalCellSize
  by_cases he : es = []
  · simp only [if_pos he]
    norm_num
  · simp only [if_neg he]
    refine ⟨le_min (le_max_right _ _) (by norm_num), min_le_right _ _, by trivial⟩

/-- Claim C9, witness: a concrete one-element rebuild with cellSize 0. -/
theorem claim9_witness :
    50 ≤ ((SpatialIndexManager.new (0, 0, 200, 200) 100).rebuild (fun q => q)
        [⟨"a", 0, 0, 30, 30⟩] (0, 0, 200, 200) 0).grid.cellSize ∧
    ((SpatialIndexManager.new (0, 0, 200, 200) 100).rebuild (fun q => q)
        [⟨"a", 0, 0, 30, 30⟩] (0, 0, 200, 200) 0).grid.cellSize ≤ 500 ∧
    ((SpatialIndexManager.new (0, 0, 200, 200) 100).rebuild (fun q => q)
        [⟨"a", 0, 0, 30, 30⟩] (0, 0, 200, 200) 0).grid.cellSize =
      specOptimalCellSize (fun q => q) [⟨"a", 0, 0, 30, 30⟩] :=
  claim9_density_bounds (fun q => q) (SpatialIndexManager.new (0, 0, 200, 200) 100)
    [⟨"a", 0, 0, 30, 30⟩] (0, 0, 200, 200) 0 (by norm_num)

/-! ### Claim C10 -/

/-- Claim C10: whenever the `auto_optimize` trigger condition holds
(captured from the stored statistics), the call rebuilds into a grid
whose universe is the fixed constant `(0,0,2000,2000)` regardless of the
previous bounds; every Registry entry is preserved (for well-keyed maps
with distinct keys), and grid membership only exists inside the new
universe's `rows × cols` cell range. -/
theorem claim10_autoOptimize (sqrtFn : ℚ → ℚ) (s : SpatialIndexManager)
    (htrig : s.stats.totalElements > 1000 ∧
      (s.stats.averageElementsPerCell > 100 ∨ s.stats.maxElementsPerCell > 200))
    (hwk : WellKeyed s) (hnk : NodupKeys s) :
    (s.autoOptimize sqrtFn).2 = true ∧
    (s.autoOptimize sqrtFn).1.grid.bounds = (0, 0, 2000, 2000) ∧
    (∀ id, mapLookup (s.autoOptimize sqrtFn).1.elementMap id =
      mapLookup s.elementMap id) ∧
    (∀ t ∈ (s.autoOptimize sqrtFn).1.grid.cells,
      t.1 < (s.autoOptimize sqrtFn).1.grid.rows ∧
      t.2.1 < (s.autoOptimize sqrtFn).1.grid.cols) := by
  have hopt : s.autoOptimize sqrtFn =
      (s.rebuild sqrtFn (s.elementMap.map fun kv => kv.2) (0, 0, 2000, 2000) 0,
        true) := by
    unfold SpatialIndexManager.autoOptimize
    rw [if_pos htrig]
  rw [hopt]
  have hids : ((s.elementMap.map fun kv => kv.2).map Element.id) =
      s.elementMap.map Prod.fst := by
    rw [List.map_map]
    exact List.map_congr_left fun kv hkv => hwk kv hkv
  refine ⟨rfl, rebuild_grid_bounds _ _ _ _ _, ?_, ?_⟩
  · intro id
    rw [rebuild_elementMap_def]
    cases hq : mapLookup s.elementMap id with
    | none =>
      have hniq : ∀ e ∈ s.elementMap.map fun kv => kv.2, e.id ≠ id := by
        intro e he hc
        rcases List.mem_map.1 he with ⟨kv, hkv, rfl⟩
        exact ((mapLookup_eq_none_iff _ _).1 hq) kv hkv (by rw [← hwk kv hkv, hc])
      rw [foldInsert_lookup_not_mem _ _ _ hniq]
      rfl
    | some e =>
      have hkvmem : (id, e) ∈ s.elementMap := mapLookup_mem _ _ _ hq
      have hemem : e ∈ s.elementMap.map fun kv => kv.2 :=
        List.mem_map.2 ⟨(id, e), hkvmem, rfl⟩
      have heid : e.id = id := hwk (id, e) hkvmem
      exact foldInsert_lookup_mem _ [] e id (by rw [hids]; exact hnk) hemem heid
  · intro t ht
    obtain ⟨r, c, i⟩ := t
    rw [rebuild_grid_def] at ht ⊢
    rw [mem_foldAdd_cells] at ht
    rcases ht with hg | ⟨e, _, _, hrc⟩
    · exact absurd hg (List.not_mem_nil _)
    · have := mem_getIntersectingCells_lt _ _ _ _ _ (r, c) hrc
      rw [foldAdd_rows, foldAdd_cols]
      exact this

/-- Claim C10, witness: the dense concrete state triggers the rebuild
into the constant universe, keeping the sole registry entry. -/
theorem claim10_witness :
    (denseStatsState.autoOptimize (fun q => q)).2 = true ∧
    (denseStatsState.autoOptimize (fun q => q)).1.grid.bounds = (0, 0, 2000, 2000) ∧
    mapLookup (denseStatsState.autoOptimize (fun q => q)).1.elementMap "a" =
      mapLookup denseStatsState.elementMap "a" := by
  have h := claim10_autoOptimize (fun q => q) denseStatsState
    ⟨by decide, Or.inr (by decide)⟩ (by decide) (by decide)
  exact ⟨h.1, h.2.1, h.2.2.1 "a"⟩

end York
